import Mathlib

/-!
Verification development for the Measurement Network Gateway GUI client
(`src/gui.c`, `src/utils.c`, `src/utils.h`).

The C sources are shallowly embedded below.  Conventions of the embedding:

* C strings (`char*`) are modelled as `List Char`.
* Machine integers are modelled as `Nat`/`Int`; where 64-bit wrap-around
  matters (`uint64_t` subtraction in `push_sample`) we reduce modulo `2^64`
  explicitly.
* C `double` values that only carry exact small integers are modelled as
  `Nat`; the one genuinely fractional computation (the visible-time-window
  formula in `handle_rates_update` / `start_clicked`) is modelled with exact
  rationals (`ℚ`), abstracting from IEEE-754 rounding of the intermediate
  quotient.
* GTK widgets, CSS, icons, labels, redraw queuing and the command-history
  ring are presentation state outside the verified core and are not
  modelled; the mutable globals of `gui.c` that the networking/state-machine
  core reads or writes are collected in the structure `GuiState`.
* Socket system calls are modelled by an explicit environment `NetEnv`
  saying whether the connect handshake and sends succeed; the receive
  direction is modelled as a finite byte stream (`List Nat`, one `Nat < 256`
  per byte), where running out of bytes models `recv` returning `0`/`-1`.
-/

namespace MNG

/-- `AppState` from `utils.h`: DISCONNECTED / CONNECTED / RUNNING. -/
inductive AppState where
  | DISCONNECTED
  | CONNECTED
  | RUNNING
  deriving DecidableEq, Repr

/-- `CmdError` from `utils.h`. -/
inductive CmdError where
  | CMD_OK
  | CMD_ERR_SYNTAX
  | CMD_ERR_SENSOR
  | CMD_ERR_FREQ_RANGE
  | CMD_ERR_NOT_CONNECTED
  | CMD_ERR_RUNNING
  | CMD_ERR_ALREADY_RUNNING
  | CMD_ERR_NOT_RUNNING
  deriving DecidableEq, Repr

/-- `MAX_SAMPLES` from `utils.h`. -/
def MAX_SAMPLES : Nat := 1024

/-- `SENSOR_COUNT` from `utils.h`. -/
def SENSOR_COUNT : Nat := 5

/-- `VISIBLE_SAMPLES` from `gui.c`. -/
def VISIBLE_SAMPLES : Nat := 300

/-- `MIN_WINDOW_US` from `gui.c` (50 ms). -/
def MIN_WINDOW_US : Nat := 50000

/-- `MAX_WINDOW_US` from `gui.c` (5 s). -/
def MAX_WINDOW_US : Nat := 5000000

/-- The mutable globals of `gui.c` that belong to the verified core:
session state machine, socket handle, receive-thread running flag, the
per-sensor circular buffers (`sample_data`, `sample_ts`, `sample_count`,
`sample_head`), the timestamp origin `server_t0`, the sensor-frequency
hash table `sensor_freq` (keyed by the five canonical sensor ids, hence
indexed by `Fin 5` here, values are the stored strings), the derived
`time_window_us`, and whether `gtk_main_quit` was requested.
Array indices are kept as raw `Nat` so that out-of-range accesses remain
expressible. -/
structure GuiState where
  appState : AppState
  sockFd : Int
  netRunning : Bool
  serverT0 : Nat
  counts : Nat → Nat
  heads : Nat → Nat
  dataArr : Nat → Nat → Nat
  tsArr : Nat → Nat → Nat
  freqs : Fin 5 → Option (List Char)
  windowUs : Nat
  quit : Bool

/-- A state with all buffers zeroed, no socket, default 5 s window:
the process-start values of the globals of `gui.c`. -/
def mkState (st : AppState) : GuiState where
  appState := st
  sockFd := -1
  netRunning := false
  serverT0 := 0
  counts := fun _ => 0
  heads := fun _ => 0
  dataArr := fun _ _ => 0
  tsArr := fun _ _ => 0
  freqs := fun _ => none
  windowUs := 5000000
  quit := false

/-! ## IPv4 validator (`is_valid_ipv4`, `src/utils.c` lines 3-25)

The C function is `sscanf(ip, "%d.%d.%d.%d%c", ...) == 4` followed by
four `[0,255]` range checks.  `%d` skips leading white space, accepts an
optional `+`/`-` sign and then a nonempty digit run (stopping at the first
non-digit); a literal `.` in the format must match exactly; the trailing
`%c` assigns a fifth item whenever any character is left, making the
result of `sscanf` `5 ≠ 4`.  `scanField` below is the `%d` directive. -/

/-- The six characters accepted by C `isspace` and skipped by `%d`. -/
def isSpaceChar (c : Char) : Bool :=
  c = ' ' || c = '\t' || c = '\n' || c = '\x0b' || c = '\x0c' || c = '\r'

/-- Optional single sign, as consumed by `%d`; returns (negative?, rest). -/
def splitSign : List Char → Bool × List Char
  | '-' :: t => (true, t)
  | '+' :: t => (false, t)
  | cs => (false, cs)

/-- Numeric value of a digit run (base 10). -/
def digitsVal (ds : List Char) : Nat :=
  ds.foldl (fun a c => 10 * a + (c.toNat - '0'.toNat)) 0

/-- The `%d` conversion of `sscanf`: skip white space, optional sign,
then a maximal nonempty digit run; `none` on matching failure.  The
mathematical value is returned unbounded (the C `int` overflow case is
undefined behaviour and irrelevant here because values above 255 are
rejected by the caller's range checks). -/
def scanField (cs : List Char) : Option (Int × List Char) :=
  let s1 := cs.dropWhile isSpaceChar
  let sg := splitSign s1
  let ds := sg.2.takeWhile Char.isDigit
  if ds.isEmpty then none
  else some ((if sg.1 then -(digitsVal ds : Int) else (digitsVal ds : Int)),
             sg.2.drop ds.length)

/-- Range check `0 <= x && x <= 255` done four times in `is_valid_ipv4`. -/
def octetOK (x : Int) : Bool := decide (0 ≤ x ∧ x ≤ 255)

/-- The literal `.` directive of the format string: it must match the next
input character exactly (no white-space skipping for ordinary characters). -/
def expectDot : List Char → Option (List Char)
  | '.' :: t => some t
  | _ => none

/-- `is_valid_ipv4` from `src/utils.c`: empty-pointer/empty-string check,
then `sscanf("%d.%d.%d.%d%c") == 4`, then the four range checks. -/
def is_valid_ipv4 (cs : List Char) : Bool :=
  if cs.isEmpty then false
  else
    match scanField cs with
    | none => false
    | some (a, r1) =>
      match expectDot r1 with
      | none => false
      | some r1' =>
        match scanField r1' with
        | none => false
        | some (b, r2) =>
          match expectDot r2 with
          | none => false
          | some r2' =>
            match scanField r2' with
            | none => false
            | some (c, r3) =>
              match expectDot r3 with
              | none => false
              | some r3' =>
                match scanField r3' with
                | none => false
                | some (d, r4) =>
                  -- a fifth character would be assigned by `%c`
                  if r4.isEmpty then
                    octetOK a && octetOK b && octetOK c && octetOK d
                  else false

/-! Specification-side predicates for claim C3.  These are written from the
claim's words, not from the code: the string is cut at the separator and
each piece is judged on its own. -/

/-- Split a character list at every occurrence of `sep` (keeping empty
pieces), the way the claim's "dot-separated groups" reading cuts a string. -/
def splitOnSep (sep : Char) : List Char → List (List Char)
  | [] => [[]]
  | c :: t =>
    if c = sep then [] :: splitOnSep sep t
    else
      match splitOnSep sep t with
      | [] => [[c]]
      | h :: r => (c :: h) :: r

/-- The claim's notion of an octet group: nonempty, digits only (no sign,
no white space), value at most 255. -/
def claimGroupOK (p : List Char) : Bool :=
  !p.isEmpty && p.all Char.isDigit && decide (digitsVal p ≤ 255)

/-- Claim C3's validity predicate, verbatim: exactly four dot-separated
decimal octet groups in [0,255], nothing else — in particular no `+`
signs and no white space anywhere. -/
def ipv4ClaimSpec (cs : List Char) : Bool :=
  (splitOnSep '.' cs).length = 4 && (splitOnSep '.' cs).all claimGroupOK

/-- What a field must look like for the C parser, stated field-locally:
optional white space, then an optional single sign, then digits only. -/
def fieldShapeOK (p : List Char) : Bool :=
  let sg := splitSign (p.dropWhile isSpaceChar)
  !sg.2.isEmpty && sg.2.all Char.isDigit

/-- The signed value of a shape-correct field. -/
def fieldVal (p : List Char) : Int :=
  let sg := splitSign (p.dropWhile isSpaceChar)
  if sg.1 then -(digitsVal sg.2 : Int) else (digitsVal sg.2 : Int)

/-- Amended field acceptance: shape-correct and value in [0,255]. -/
def fieldOK (p : List Char) : Bool :=
  fieldShapeOK p && octetOK (fieldVal p)

/-- The amended validity predicate for claim C3: four dot-separated
fields, each of the form `white-space* sign? digit+` with value in
[0,255] (so a `-` sign is only accepted on an all-zero digit run). -/
def ipv4AmendedSpec (cs : List Char) : Bool :=
  (splitOnSep '.' cs).length = 4 && (splitOnSep '.' cs).all fieldOK


/-! ## Helper lemmas for the C3 parser/specification equivalence -/

theorem drop_length_takeWhile (p : Char → Bool) (l : List Char) :
    l.drop (l.takeWhile p).length = l.dropWhile p := by
  induction l with
  | nil => rfl
  | cons a t ih =>
    by_cases h : p a
    · simp [List.takeWhile_cons_of_pos h, List.dropWhile_cons_of_pos h, ih]
    · simp [List.takeWhile_cons_of_neg h, List.dropWhile_cons_of_neg h]

theorem splitSign_default (c : Char) (t : List Char) (h1 : c ≠ '-') (h2 : c ≠ '+') :
    splitSign (c :: t) = (false, c :: t) := by
  unfold splitSign
  split
  · simp_all
  · simp_all
  · rfl

theorem isDigit_not_space {c : Char} (h : c.isDigit = true) : isSpaceChar c = false := by
  by_contra hs
  rw [Bool.not_eq_false] at hs
  simp only [isSpaceChar, Bool.or_eq_true, decide_eq_true_eq] at hs
  rcases hs with ((((h1 | h1) | h1) | h1) | h1) | h1 <;> (subst h1; exact absurd h (by decide))

theorem isDigit_ne_dot {c : Char} (h : c.isDigit = true) : c ≠ '.' := by
  intro e; subst e; exact absurd h (by decide)

theorem isDigit_ne_minus {c : Char} (h : c.isDigit = true) : c ≠ '-' := by
  intro e; subst e; exact absurd h (by decide)

theorem isDigit_ne_plus {c : Char} (h : c.isDigit = true) : c ≠ '+' := by
  intro e; subst e; exact absurd h (by decide)

theorem isSpaceChar_ne_dot {c : Char} (h : isSpaceChar c = true) : c ≠ '.' := by
  simp only [isSpaceChar, Bool.or_eq_true, decide_eq_true_eq] at h
  rcases h with ((((h1 | h1) | h1) | h1) | h1) | h1 <;> (subst h1; decide)


/-- Shape, value and dot-freeness of a field assembled from white space,
an optional sign and a digit run.  Shared by the three sign cases of
`scanField_sound`. -/
theorem field_build (w sgn ds : List Char) (neg : Bool)
    (hw : ∀ c ∈ w, isSpaceChar c = true)
    (hsgn : (neg = true ∧ sgn = ['-']) ∨ (neg = false ∧ sgn = ['+']) ∨
            (neg = false ∧ sgn = []))
    (hds : ds ≠ []) (hdig : ∀ c ∈ ds, c.isDigit = true) :
    fieldShapeOK (w ++ sgn ++ ds) = true ∧
    fieldVal (w ++ sgn ++ ds)
      = (if neg then -(digitsVal ds : Int) else (digitsVal ds : Int)) ∧
    (∀ c ∈ w ++ sgn ++ ds, c ≠ '.') := by
  have hdrop : (w ++ (sgn ++ ds)).dropWhile isSpaceChar = sgn ++ ds := by
    rw [List.dropWhile_append_of_pos hw]
    rcases hsgn with ⟨_, rfl⟩ | ⟨_, rfl⟩ | ⟨_, rfl⟩
    · exact List.dropWhile_cons_of_neg (by decide)
    · exact List.dropWhile_cons_of_neg (by decide)
    · simp only [List.nil_append]
      cases ds with
      | nil => rfl
      | cons d t =>
        exact List.dropWhile_cons_of_neg
          (by simp [isDigit_not_space (hdig d (by simp))])
  have hsplit : splitSign (sgn ++ ds) = (neg, ds) := by
    rcases hsgn with ⟨rfl, rfl⟩ | ⟨rfl, rfl⟩ | ⟨rfl, rfl⟩
    · rfl
    · rfl
    · cases ds with
      | nil => exact absurd rfl hds
      | cons d t =>
        exact splitSign_default d t
          (isDigit_ne_minus (hdig d (by simp)))
          (isDigit_ne_plus (hdig d (by simp)))
  refine ⟨?_, ?_, ?_⟩
  · simp only [fieldShapeOK, List.append_assoc, hdrop, hsplit,
      Bool.and_eq_true, Bool.not_eq_true']
    exact ⟨by simpa [List.isEmpty_iff] using hds, List.all_eq_true.mpr hdig⟩
  · simp only [fieldVal, List.append_assoc, hdrop, hsplit]
  · intro c hc
    simp only [List.append_assoc, List.mem_append] at hc
    rcases hc with hc | hc | hc
    · exact isSpaceChar_ne_dot (hw c hc)
    · rcases hsgn with ⟨_, rfl⟩ | ⟨_, rfl⟩ | ⟨_, rfl⟩ <;> simp_all
    · exact isDigit_ne_dot (hdig c hc)

/-- Soundness of the `%d` directive: a successful scan decomposes the
input into a shape-correct, dot-free consumed prefix and the rest, whose
first character (if any) is not a digit. -/
theorem scanField_sound {cs rest : List Char} {v : Int}
    (h : scanField cs = some (v, rest)) :
    ∃ p, cs = p ++ rest ∧ fieldShapeOK p = true ∧ fieldVal p = v ∧
      (∀ c ∈ p, c ≠ '.') ∧ (∀ c ∈ rest.head?, c.isDigit = false) := by
  simp only [scanField] at h
  split at h
  · exact absurd h (by simp)
  · rename_i hne
    rw [Option.some.injEq, Prod.mk.injEq] at h
    obtain ⟨hv, hr⟩ := h
    rw [drop_length_takeWhile] at hr
    -- names for the pieces
    have hws : ∀ c ∈ cs.takeWhile isSpaceChar, isSpaceChar c = true :=
      fun c hc => List.mem_takeWhile_imp hc
    have hcs : cs.takeWhile isSpaceChar ++ cs.dropWhile isSpaceChar = cs :=
      List.takeWhile_append_dropWhile isSpaceChar cs
    have hdig : ∀ c ∈ (splitSign (cs.dropWhile isSpaceChar)).2.takeWhile Char.isDigit,
        c.isDigit = true := fun c hc => List.mem_takeWhile_imp hc
    have hds : (splitSign (cs.dropWhile isSpaceChar)).2.takeWhile Char.isDigit ≠ [] := by
      simpa [List.isEmpty_iff] using hne
    have htl : (splitSign (cs.dropWhile isSpaceChar)).2.takeWhile Char.isDigit ++ rest
        = (splitSign (cs.dropWhile isSpaceChar)).2 := by
      rw [← hr]; exact List.takeWhile_append_dropWhile Char.isDigit _
    have hhead : ∀ c ∈ rest.head?, c.isDigit = false := by
      intro c hc
      have := List.head?_dropWhile_not Char.isDigit
        (splitSign (cs.dropWhile isSpaceChar)).2
      rw [← hr] at hc
      revert this
      cases hh : ((splitSign (cs.dropWhile isSpaceChar)).2.dropWhile Char.isDigit).head? with
      | none => simp [hh] at hc
      | some d =>
        intro hthis
        rw [hh] at hc
        simp only [Option.mem_def, Option.some.injEq] at hc
        subst hc
        simpa [hh] using hthis
    -- case analysis on how the sign was taken
    cases hs1 : cs.dropWhile isSpaceChar with
    | nil =>
      exfalso
      rw [hs1] at hds
      exact hds (by rfl)
    | cons c t =>
      by_cases hm : c = '-'
      · subst hm
        have h1 : (splitSign (cs.dropWhile isSpaceChar)).1 = true := by rw [hs1]; rfl
        have h2 : (splitSign (cs.dropWhile isSpaceChar)).2 = t := by rw [hs1]; rfl
        refine ⟨cs.takeWhile isSpaceChar ++ ['-']
          ++ (splitSign (cs.dropWhile isSpaceChar)).2.takeWhile Char.isDigit, ?_, ?_⟩
        · conv_lhs => rw [← hcs, hs1]
          rw [h2] at htl
          simp only [List.append_assoc, List.cons_append, List.nil_append]
          rw [h2, htl]
        · have hb := field_build (cs.takeWhile isSpaceChar) ['-']
            ((splitSign (cs.dropWhile isSpaceChar)).2.takeWhile Char.isDigit) true
            hws (Or.inl ⟨rfl, rfl⟩) hds hdig
          refine ⟨hb.1, ?_, hb.2.2, hhead⟩
          rw [hb.2.1, ← hv, h1]
      · by_cases hp : c = '+'
        · subst hp
          have h1 : (splitSign (cs.dropWhile isSpaceChar)).1 = false := by rw [hs1]; rfl
          have h2 : (splitSign (cs.dropWhile isSpaceChar)).2 = t := by rw [hs1]; rfl
          refine ⟨cs.takeWhile isSpaceChar ++ ['+']
            ++ (splitSign (cs.dropWhile isSpaceChar)).2.takeWhile Char.isDigit, ?_, ?_⟩
          · conv_lhs => rw [← hcs, hs1]
            rw [h2] at htl
            simp only [List.append_assoc, List.cons_append, List.nil_append]
            rw [h2, htl]
          · have hb := field_build (cs.takeWhile isSpaceChar) ['+']
              ((splitSign (cs.dropWhile isSpaceChar)).2.takeWhile Char.isDigit) false
              hws (Or.inr (Or.inl ⟨rfl, rfl⟩)) hds hdig
            refine ⟨hb.1, ?_, hb.2.2, hhead⟩
            rw [hb.2.1, ← hv, h1]
        · have hsgd : splitSign (c :: t) = (false, c :: t) := splitSign_default c t hm hp
          have h1 : (splitSign (cs.dropWhile isSpaceChar)).1 = false := by rw [hs1, hsgd]
          have h2 : (splitSign (cs.dropWhile isSpaceChar)).2 = c :: t := by rw [hs1, hsgd]
          refine ⟨cs.takeWhile isSpaceChar ++ []
            ++ (splitSign (cs.dropWhile isSpaceChar)).2.takeWhile Char.isDigit, ?_, ?_⟩
          · conv_lhs => rw [← hcs, hs1]
            rw [h2] at htl
            simp only [List.append_assoc, List.nil_append]
            rw [h2, htl]
          · have hb := field_build (cs.takeWhile isSpaceChar) []
              ((splitSign (cs.dropWhile isSpaceChar)).2.takeWhile Char.isDigit) false
              hws (Or.inr (Or.inr ⟨rfl, rfl⟩)) hds hdig
            refine ⟨hb.1, ?_, hb.2.2, hhead⟩
            rw [hb.2.1, ← hv, h1]


theorem expectDot_cons_dot (t : List Char) : expectDot ('.' :: t) = some t := rfl

theorem expectDot_eq_some {r t : List Char} (h : expectDot r = some t) :
    r = '.' :: t := by
  cases r with
  | nil => exact absurd h (by simp [expectDot])
  | cons c r' =>
    by_cases hc : c = '.'
    · subst hc
      rw [expectDot_cons_dot] at h
      cases h
      rfl
    · exfalso
      have : expectDot (c :: r') = none := by
        unfold expectDot
        split
        · simp_all
        · rfl
      rw [this] at h
      cases h

/-! ## splitOnSep structure lemmas -/

theorem splitOnSep_ne_nil (sep : Char) (cs : List Char) : splitOnSep sep cs ≠ [] := by
  cases cs with
  | nil => simp [splitOnSep]
  | cons c t =>
    by_cases h : c = sep
    · simp [splitOnSep, h]
    · simp only [splitOnSep, if_neg h]
      cases splitOnSep sep t <;> simp

theorem splitOnSep_no_sep (sep : Char) (cs : List Char) (h : ∀ c ∈ cs, c ≠ sep) :
    splitOnSep sep cs = [cs] := by
  induction cs with
  | nil => rfl
  | cons c t ih =>
    have hc : c ≠ sep := h c (by simp)
    rw [splitOnSep, if_neg hc, ih (fun x hx => h x (by simp [hx]))]

theorem splitOnSep_append (sep : Char) (p t : List Char) (hp : ∀ c ∈ p, c ≠ sep) :
    splitOnSep sep (p ++ sep :: t) = p :: splitOnSep sep t := by
  induction p with
  | nil => simp [splitOnSep]
  | cons c p' ih =>
    have hc : c ≠ sep := hp c (by simp)
    rw [List.cons_append, splitOnSep, if_neg hc,
      ih (fun x hx => hp x (by simp [hx]))]

/-- Concatenate pieces back with the separator: the inverse of `splitOnSep`. -/
def joinSep (sep : Char) : List (List Char) → List Char
  | [] => []
  | [p] => p
  | p :: q :: r => p ++ sep :: joinSep sep (q :: r)

theorem joinSep_splitOnSep (sep : Char) (cs : List Char) :
    joinSep sep (splitOnSep sep cs) = cs := by
  induction cs with
  | nil => rfl
  | cons c t ih =>
    by_cases h : c = sep
    · subst h
      rw [splitOnSep, if_pos rfl]
      cases hsp : splitOnSep c t with
      | nil => exact absurd hsp (splitOnSep_ne_nil c t)
      | cons q r =>
        rw [hsp] at ih
        simp [joinSep, ih]
    · rw [splitOnSep, if_neg h]
      cases hsp : splitOnSep sep t with
      | nil => exact absurd hsp (splitOnSep_ne_nil sep t)
      | cons q r =>
        rw [hsp] at ih
        cases r with
        | nil =>
          simpa [joinSep] using congrArg (c :: ·) ih
        | cons q' r' =>
          simp only [joinSep] at ih ⊢
          rw [← ih]
          simp

theorem splitOnSep_parts_no_sep (sep : Char) (cs : List Char) :
    ∀ q ∈ splitOnSep sep cs, ∀ c ∈ q, c ≠ sep := by
  induction cs with
  | nil =>
    intro q hq
    simp [splitOnSep] at hq
    subst hq
    simp
  | cons c t ih =>
    intro q hq
    by_cases h : c = sep
    · rw [splitOnSep, if_pos h] at hq
      rcases List.mem_cons.mp hq with rfl | hq'
      · simp
      · exact ih q hq'
    · rw [splitOnSep, if_neg h] at hq
      cases hsp : splitOnSep sep t with
      | nil => exact absurd hsp (splitOnSep_ne_nil sep t)
      | cons p r =>
        rw [hsp] at hq
        rcases List.mem_cons.mp hq with rfl | hq'
        · intro x hx
          rcases List.mem_cons.mp hx with rfl | hx'
          · exact h
          · exact ih p (by rw [hsp]; simp) x hx'
        · exact ih q (by rw [hsp]; simp [hq'])


/-- Any shape-correct field decomposes into white space, an optional sign
and a nonempty digit run. -/
theorem field_decompose (p : List Char) (hp : fieldShapeOK p = true) :
    ∃ w sgn ds neg, p = w ++ sgn ++ ds ∧ (∀ c ∈ w, isSpaceChar c = true) ∧
      ((neg = true ∧ sgn = ['-']) ∨ (neg = false ∧ sgn = ['+']) ∨
        (neg = false ∧ sgn = [])) ∧
      ds ≠ [] ∧ (∀ c ∈ ds, c.isDigit = true) ∧
      splitSign (p.dropWhile isSpaceChar) = (neg, ds) := by
  have hws : ∀ c ∈ p.takeWhile isSpaceChar, isSpaceChar c = true :=
    fun c hc => List.mem_takeWhile_imp hc
  have hcs : p.takeWhile isSpaceChar ++ p.dropWhile isSpaceChar = p :=
    List.takeWhile_append_dropWhile isSpaceChar p
  simp only [fieldShapeOK, Bool.and_eq_true, Bool.not_eq_true'] at hp
  obtain ⟨hne, hall⟩ := hp
  have hdig : ∀ c ∈ (splitSign (p.dropWhile isSpaceChar)).2, c.isDigit = true :=
    List.all_eq_true.mp hall
  have hds : (splitSign (p.dropWhile isSpaceChar)).2 ≠ [] := by
    simpa [List.isEmpty_iff] using hne
  cases hs1 : p.dropWhile isSpaceChar with
  | nil =>
    exfalso
    rw [hs1] at hds
    exact hds (by rfl)
  | cons c t =>
    by_cases hm : c = '-'
    · subst hm
      have h2 : (splitSign (p.dropWhile isSpaceChar)).2 = t := by rw [hs1]; rfl
      refine ⟨p.takeWhile isSpaceChar, ['-'], t, true, ?_, hws,
        Or.inl ⟨rfl, rfl⟩, by rw [h2] at hds; exact hds,
        by rw [h2] at hdig; exact hdig, rfl⟩
      conv_lhs => rw [← hcs, hs1]
      simp
    · by_cases hq : c = '+'
      · subst hq
        have h2 : (splitSign (p.dropWhile isSpaceChar)).2 = t := by rw [hs1]; rfl
        refine ⟨p.takeWhile isSpaceChar, ['+'], t, false, ?_, hws,
          Or.inr (Or.inl ⟨rfl, rfl⟩), by rw [h2] at hds; exact hds,
          by rw [h2] at hdig; exact hdig, rfl⟩
        conv_lhs => rw [← hcs, hs1]
        simp
      · have hsgd : splitSign (c :: t) = (false, c :: t) := splitSign_default c t hm hq
        have h2 : (splitSign (p.dropWhile isSpaceChar)).2 = c :: t := by rw [hs1, hsgd]
        refine ⟨p.takeWhile isSpaceChar, [], c :: t, false, ?_, hws,
          Or.inr (Or.inr ⟨rfl, rfl⟩), by simp,
          by rw [h2] at hdig; exact hdig, hsgd⟩
        conv_lhs => rw [← hcs, hs1]
        simp

/-- Completeness of the `%d` directive on an assembled field followed by
a rest that is empty or starts with a dot. -/
theorem scanField_build (w sgn ds r : List Char) (neg : Bool)
    (hw : ∀ c ∈ w, isSpaceChar c = true)
    (hsgn : (neg = true ∧ sgn = ['-']) ∨ (neg = false ∧ sgn = ['+']) ∨
            (neg = false ∧ sgn = []))
    (hds : ds ≠ []) (hdig : ∀ c ∈ ds, c.isDigit = true)
    (hr : r.head? = none ∨ r.head? = some '.') :
    scanField (w ++ sgn ++ ds ++ r)
      = some ((if neg then -(digitsVal ds : Int) else (digitsVal ds : Int)), r) := by
  have hrtw : r.takeWhile Char.isDigit = [] := by
    rcases hr with h | h
    · rw [List.head?_eq_none_iff.mp h]
      rfl
    · cases r with
      | nil => rfl
      | cons a t =>
        simp only [List.head?_cons, Option.some.injEq] at h
        subst h
        exact List.takeWhile_cons_of_neg (by decide)
  have h1 : (w ++ sgn ++ ds ++ r).dropWhile isSpaceChar = sgn ++ (ds ++ r) := by
    simp only [List.append_assoc]
    rw [List.dropWhile_append_of_pos hw]
    rcases hsgn with ⟨_, rfl⟩ | ⟨_, rfl⟩ | ⟨_, rfl⟩
    · exact List.dropWhile_cons_of_neg (by decide)
    · exact List.dropWhile_cons_of_neg (by decide)
    · simp only [List.nil_append]
      cases ds with
      | nil => exact absurd rfl hds
      | cons d t =>
        exact List.dropWhile_cons_of_neg
          (by simp [isDigit_not_space (hdig d (by simp))])
  have h2 : splitSign (sgn ++ (ds ++ r)) = (neg, ds ++ r) := by
    rcases hsgn with ⟨rfl, rfl⟩ | ⟨rfl, rfl⟩ | ⟨rfl, rfl⟩
    · rfl
    · rfl
    · cases ds with
      | nil => exact absurd rfl hds
      | cons d t =>
        exact splitSign_default d (t ++ r)
          (isDigit_ne_minus (hdig d (by simp)))
          (isDigit_ne_plus (hdig d (by simp)))
  have h3 : (ds ++ r).takeWhile Char.isDigit = ds := by
    rw [List.takeWhile_append_of_pos hdig, hrtw, List.append_nil]
  simp only [scanField, h1, h2, h3]
  rw [if_neg (by simpa [List.isEmpty_iff] using hds)]
  rw [List.drop_left]

/-- The parser accepts an accepted field and returns exactly its value. -/
theorem scanField_of_fieldOK (p r : List Char) (hp : fieldShapeOK p = true)
    (hr : r.head? = none ∨ r.head? = some '.') :
    scanField (p ++ r) = some (fieldVal p, r) := by
  obtain ⟨w, sgn, ds, neg, hdec, hw, hsgn, hds, hdig, hss⟩ := field_decompose p hp
  have hv : fieldVal p = (if neg then -(digitsVal ds : Int) else (digitsVal ds : Int)) := by
    simp only [fieldVal, hss]
  rw [hv, hdec]
  have hb := scanField_build w sgn ds r neg hw hsgn hds hdig hr
  simp only [List.append_assoc] at hb ⊢
  exact hb


theorem list_length_eq_four {α : Type} {l : List α} (h : l.length = 4) :
    ∃ a b c d, l = [a, b, c, d] := by
  cases l with
  | nil => simp at h
  | cons a l1 =>
    cases l1 with
    | nil => simp at h
    | cons b l2 =>
      cases l2 with
      | nil => simp at h
      | cons c l3 =>
        cases l3 with
        | nil => simp at h
        | cons d l4 =>
          cases l4 with
          | nil => exact ⟨a, b, c, d, rfl⟩
          | cons e l5 => simp at h

/-- Forward half of the C3 equivalence: every string accepted by
`is_valid_ipv4` splits at the dots into four accepted fields. -/
theorem is_valid_ipv4_sound {cs : List Char} (h : is_valid_ipv4 cs = true) :
    ipv4AmendedSpec cs = true := by
  simp only [is_valid_ipv4] at h
  split at h
  · simp at h
  split at h
  · simp at h
  split at h
  · simp at h
  split at h
  · simp at h
  split at h
  · simp at h
  split at h
  · simp at h
  split at h
  · simp at h
  split at h
  · simp at h
  split at h
  on_goal 2 => simp at h
  rename_i hno x1 a r1 hsf1 x2 r1' hd1 x3 b r2 hsf2 x4 r2' hd2 x5 c r3 hsf3 x6 r3' hd3 x7 d r4 hsf4 hie
  obtain ⟨p1, e1, sh1, fv1, nd1, _⟩ := scanField_sound hsf1
  obtain ⟨p2, e2, sh2, fv2, nd2, _⟩ := scanField_sound hsf2
  obtain ⟨p3, e3, sh3, fv3, nd3, _⟩ := scanField_sound hsf3
  obtain ⟨p4, e4, sh4, fv4, nd4, _⟩ := scanField_sound hsf4
  have hr4 : r4 = [] := List.isEmpty_iff.mp hie
  have hr1 : r1 = '.' :: r1' := expectDot_eq_some hd1
  have hr2 : r2 = '.' :: r2' := expectDot_eq_some hd2
  have hr3 : r3 = '.' :: r3' := expectDot_eq_some hd3
  subst hr4 hr1 hr2 hr3
  rw [List.append_nil] at e4
  subst e4 e3 e2 e1
  have hsplit : splitOnSep '.' (p1 ++ '.' :: (p2 ++ '.' :: (p3 ++ '.' :: r3')))
      = [p1, p2, p3, r3'] := by
    rw [splitOnSep_append '.' p1 _ nd1, splitOnSep_append '.' p2 _ nd2,
      splitOnSep_append '.' p3 _ nd3, splitOnSep_no_sep '.' r3' nd4]
  simp only [Bool.and_eq_true, Bool.and_eq_true] at h
  obtain ⟨⟨⟨ho1, ho2⟩, ho3⟩, ho4⟩ := h
  simp only [ipv4AmendedSpec, hsplit, List.length_cons, List.length_nil, List.all_cons,
    List.all_nil, fieldOK, Bool.and_eq_true, Bool.and_true]
  rw [fv1, fv2, fv3, fv4] at *
  simp [sh1, sh2, sh3, sh4, fieldOK, ho1, ho2, ho3, ho4]

/-- Backward half of the C3 equivalence: a string that splits at the dots
into four accepted fields is accepted by the parser. -/
theorem is_valid_ipv4_complete {cs : List Char} (h : ipv4AmendedSpec cs = true) :
    is_valid_ipv4 cs = true := by
  simp only [ipv4AmendedSpec, Bool.and_eq_true, decide_eq_true_eq] at h
  obtain ⟨h4, hall⟩ := h
  obtain ⟨p1, p2, p3, p4, hl⟩ := list_length_eq_four h4
  have hjoin := joinSep_splitOnSep '.' cs
  rw [hl] at hjoin
  have hceq : cs = p1 ++ '.' :: (p2 ++ '.' :: (p3 ++ '.' :: p4)) := by
    rw [← hjoin]; simp [joinSep]
  have hparts := splitOnSep_parts_no_sep '.' cs
  rw [hl] at hparts
  have hok : ∀ q ∈ [p1, p2, p3, p4], fieldOK q = true := by
    rw [hl] at hall
    exact fun q hq => List.all_eq_true.mp hall q hq
  have hfo1 := hok p1 (by simp)
  have hfo2 := hok p2 (by simp)
  have hfo3 := hok p3 (by simp)
  have hfo4 := hok p4 (by simp)
  simp only [fieldOK, Bool.and_eq_true] at hfo1 hfo2 hfo3 hfo4
  have e1 : scanField cs
      = some (fieldVal p1, '.' :: (p2 ++ '.' :: (p3 ++ '.' :: p4))) := by
    rw [hceq]
    exact scanField_of_fieldOK p1 _ hfo1.1 (Or.inr rfl)
  have e3 : scanField (p2 ++ '.' :: (p3 ++ '.' :: p4))
      = some (fieldVal p2, '.' :: (p3 ++ '.' :: p4)) :=
    scanField_of_fieldOK p2 _ hfo2.1 (Or.inr rfl)
  have e5 : scanField (p3 ++ '.' :: p4)
      = some (fieldVal p3, '.' :: p4) :=
    scanField_of_fieldOK p3 _ hfo3.1 (Or.inr rfl)
  have e7 : scanField p4 = some (fieldVal p4, []) := by
    have := scanField_of_fieldOK p4 [] hfo4.1 (Or.inl rfl)
    simpa using this
  have hemp : cs.isEmpty = false := by
    rw [hceq]
    cases p1 <;> simp
  simp only [is_valid_ipv4, hemp, Bool.false_eq_true, if_false, e1, e3, e5, e7,
    expectDot_cons_dot, List.isEmpty_nil, if_true]
  simp [hfo1.2, hfo2.2, hfo3.2, hfo4.2]


/-- Claim C3 (corrected), counterexample: `is_valid_ipv4` accepts
`"+1.2.3.4"`, a string with a leading `+` sign, which the claim's
predicate (four pure-digit dot-separated octet groups, no `+` signs, no
white space) rejects; so the claimed equivalence is false as stated. -/
theorem claim_C3_counterexample :
    is_valid_ipv4 "+1.2.3.4".data = true ∧ ipv4ClaimSpec "+1.2.3.4".data = false := by
  constructor
  · decide
  · decide

/-- Claim C3 (corrected, amended): `is_valid_ipv4(s)` returns true iff `s`
consists of exactly four dot-separated fields with nothing after the
fourth, where each field is optional white space, an optional single `+`
or `-` sign, and a nonempty digit run whose signed value lies in [0,255]
(this is the actual `sscanf("%d.%d.%d.%d%c")` semantics: leading white
space and signs inside fields are accepted, unlike the claim's wording). -/
theorem claim_C3 (cs : List Char) : is_valid_ipv4 cs = ipv4AmendedSpec cs := by
  cases hv : is_valid_ipv4 cs with
  | true => exact (is_valid_ipv4_sound hv).symm
  | false =>
    cases ha : ipv4AmendedSpec cs with
    | false => rfl
    | true => exact absurd (is_valid_ipv4_complete ha) (by simp [hv])



/-! ## Session globals and click handlers (`src/gui.c`)

`NetEnv` abstracts the socket system calls: whether the connect handshake
succeeds (and the descriptor it yields), whether `send` succeeds, and the
user's answer to the shutdown confirmation dialog. -/

structure NetEnv where
  connectOk : Bool
  newFd : Nat
  sendOk : Bool
  confirmYes : Bool
  deriving Repr

/-- `reset_plot_state` (`gui.c` lines 150-159): clears `server_t0` and
every sensor's `sample_count`/`sample_head`. -/
def reset_plot_state (s : GuiState) : GuiState :=
  { s with serverT0 := 0, counts := fun _ => 0, heads := fun _ => 0 }

/-- `handle_connection_lost` (`gui.c` lines 299-322): clear the running
flag, close and invalidate the socket if it is open, reset the plot
buffers, and force the state machine to DISCONNECTED.  (The status-label
update and `apply_state` are presentation-side.) -/
def handle_connection_lost (s : GuiState) : GuiState :=
  { reset_plot_state
      { s with
        netRunning := false,
        sockFd := if 0 ≤ s.sockFd then -1 else s.sockFd } with
    appState := AppState.DISCONNECTED }

/-- `push_sample` (`gui.c` lines 577-637): establish `server_t0` on the
first sample (while it is 0), store the value and the 64-bit-wrapping
relative timestamp at the sensor's head slot, grow the count up to
`MAX_SAMPLES`, and advance the head modulo `MAX_SAMPLES`.  The trailing
"last 10 Temp + ADC1" logging block only reads the buffers and posts a
UI event, so it does not appear here. -/
def push_sample (s : GuiState) (sid : Nat) (value : Nat) (ts : Nat) : GuiState :=
  let t0 := if s.serverT0 = 0 then ts else s.serverT0
  let rel := (2 ^ 64 + ts - t0) % 2 ^ 64
  let h := s.heads sid
  { s with
    serverT0 := t0,
    dataArr := fun a b => if a = sid ∧ b = h then value else s.dataArr a b,
    tsArr := fun a b => if a = sid ∧ b = h then rel else s.tsArr a b,
    counts := fun a => if a = sid then
        (if s.counts sid < MAX_SAMPLES then s.counts sid + 1 else s.counts sid)
      else s.counts a,
    heads := fun a => if a = sid then (h + 1) % MAX_SAMPLES else s.heads a }

/-- The clamping of `time_window_us` into `[MIN_WINDOW_US, MAX_WINDOW_US]`,
written as the two successive `if` statements of the source. -/
def clampWindow (w : Nat) : Nat :=
  let w1 := if w < MIN_WINDOW_US then MIN_WINDOW_US else w
  if MAX_WINDOW_US < w1 then MAX_WINDOW_US else w1

/-- The window formula shared by `handle_rates_update` and
`start_clicked`: `(uint64)(VISIBLE_SAMPLES * (1e6 / rate_hz))`, the C
`double` arithmetic modelled by exact rationals and the cast by
truncation (`Int.toNat ∘ Int.floor`, the values being nonnegative). -/
def windowFromRate (rate : Nat) : Nat :=
  (Int.floor ((VISIBLE_SAMPLES : ℚ) * (1000000 / (rate : ℚ)))).toNat

/-- `connect_clicked` (`gui.c` lines 1335-1439), given the IP text of the
entry.  All failure modes (socket creation, `inet_pton`, refused,
timeout) leave the session state unchanged with the descriptor
invalidated; on success the receive thread is started, the plot state is
reset, the peer is recorded and the state machine moves to CONNECTED. -/
def connect_clicked (env : NetEnv) (ip : List Char) (s : GuiState) : GuiState :=
  if ip.isEmpty then s
  else if !env.connectOk then { s with sockFd := -1 }
  else
    let s1 := { s with sockFd := (env.newFd : Int), netRunning := true }
    let s2 := reset_plot_state s1
    { s2 with appState := AppState.CONNECTED }

/-- `disconnect_clicked` (`gui.c` lines 1529-1551): stop and join the
receive thread, close the socket if open, reset the plot state, move to
DISCONNECTED. -/
def disconnect_clicked (s : GuiState) : GuiState :=
  { reset_plot_state
      { s with
        netRunning := false,
        sockFd := if 0 ≤ s.sockFd then -1 else s.sockFd } with
    appState := AppState.DISCONNECTED }

/-- `start_clicked` (`gui.c` lines 1560-1605): bail out without a socket,
when already RUNNING, or when sending `START\n` fails; otherwise force
every sensor's stored rate to "300", recompute the visible window from
300 Hz with clamping, and move to RUNNING. -/
def start_clicked (env : NetEnv) (s : GuiState) : GuiState :=
  if s.sockFd < 0 then s
  else if s.appState = AppState.RUNNING then s
  else if !env.sendOk then s
  else
    { s with
      freqs := fun _ => some ['3', '0', '0'],
      windowUs := clampWindow (windowFromRate 300),
      appState := AppState.RUNNING }

/-- `stop_clicked` (`gui.c` lines 1639-1651): bail out without a socket;
otherwise send `STOP\n` (best effort) and move to CONNECTED. -/
def stop_clicked (s : GuiState) : GuiState :=
  if s.sockFd < 0 then s
  else { s with appState := AppState.CONNECTED }

/-- `shutdown_clicked` (`gui.c` lines 349-395): after the confirmation
dialog, send STOP if running and SHUTDOWN (best effort), stop and join
the receive thread, close the socket, move to DISCONNECTED and quit the
main loop.  Note: unlike `disconnect_clicked`, it does not reset the
plot state. -/
def shutdown_clicked (env : NetEnv) (s : GuiState) : GuiState :=
  if !env.confirmYes then s
  else
    { s with
      netRunning := false,
      sockFd := if 0 ≤ s.sockFd then -1 else s.sockFd,
      appState := AppState.DISCONNECTED,
      quit := true }


/-! ## Command interpreter (`cmd_enter`, `gui.c` lines 903-1270) -/

/-- `sensor_ids` from `gui.c`: the canonical wire names. -/
def sensor_ids : Fin 5 → List Char
  | 0 => ['T', 'E', 'M', 'P']
  | 1 => ['A', 'D', 'C', '0']
  | 2 => ['A', 'D', 'C', '1']
  | 3 => ['S', 'W']
  | 4 => ['P', 'B']

/-- `sensor_labels` from `gui.c`: the display labels. -/
def sensor_labels : Fin 5 → List Char
  | 0 => ['T', 'e', 'm', 'p']
  | 1 => ['A', 'D', 'C', ' ', '0']
  | 2 => ['A', 'D', 'C', ' ', '1']
  | 3 => ['S', 'w', 'i', 't', 'c', 'h', 'e', 's']
  | 4 => ['P', 'u', 's', 'h', ' ', 'B', 'u', 't', 't', 'o', 'n', 's']

/-- `g_ascii_strcasecmp(a, b) == 0`: ASCII-case-insensitive equality
(`Char.toUpper` only folds `a`-`z`, like the GLib ASCII variant). -/
def strEqCI (a b : List Char) : Bool :=
  a.map Char.toUpper = b.map Char.toUpper

/-- `canonical_sensor` (`gui.c` lines 110-119): first sensor whose
canonical id or display label matches case-insensitively; the source
returns the pointer `sensor_ids[i]`, modelled by the index `i`. -/
def canonical_sensor (t : List Char) : Option (Fin 5) :=
  (List.finRange 5).find? (fun i => strEqCI t (sensor_ids i) || strEqCI t (sensor_labels i))

/-- `strtok(buf, " ")` tokenization: the nonempty maximal runs between
spaces. -/
def tokens (cs : List Char) : List (List Char) :=
  (splitOnSep ' ' cs).filter (fun t => !t.isEmpty)

/-- `g_strstrip`: remove leading and trailing white space. -/
def gstrip (cs : List Char) : List Char :=
  ((cs.dropWhile isSpaceChar).reverse.dropWhile isSpaceChar).reverse

/-- Outcome of `cmd_enter` as observed through the feedback label: either
the HELP early return, or a `valid` flag together with the `CmdError`
that selects the error message. -/
inductive CmdOutcome where
  | helped
  | res (valid : Bool) (err : CmdError)
  deriving DecidableEq, Repr

/-- `atoi` applied after the all-digits check of the CONFIGURE branch. -/
def atoiDigits (t : List Char) : Nat := digitsVal t

/-- `cmd_enter` (`gui.c` lines 903-1270): tokenizes the entry text,
dispatches on the verb case-insensitively, re-checks the session state
for every state-dependent verb, and triggers the corresponding click
handler on success.  Returns the new global state and the outcome.
History, icons and CSS feedback are presentation-side and omitted. -/
def cmd_enter (env : NetEnv) (s : GuiState) (input : List Char) : GuiState × CmdOutcome :=
  if strEqCI (gstrip input) ['H', 'E', 'L', 'P'] then
    (s, CmdOutcome.helped)
  else
    match tokens input with
    | [] => (s, CmdOutcome.res false CmdError.CMD_ERR_SYNTAX)
    | tok1 :: rest =>
      if strEqCI tok1 ['C', 'O', 'N', 'N', 'E', 'C', 'T'] then
        match rest with
        | [tok2] =>
          if !is_valid_ipv4 tok2 then
            (s, CmdOutcome.res false CmdError.CMD_ERR_SYNTAX)
          else if s.appState ≠ AppState.DISCONNECTED then
            (s, CmdOutcome.res false CmdError.CMD_ERR_SYNTAX)
          else
            (connect_clicked env tok2 s, CmdOutcome.res true CmdError.CMD_OK)
        | _ => (s, CmdOutcome.res false CmdError.CMD_ERR_SYNTAX)
      else if strEqCI tok1 ['D', 'I', 'S', 'C', 'O', 'N', 'N', 'E', 'C', 'T'] then
        match rest with
        | [] =>
          if s.appState = AppState.DISCONNECTED then
            (s, CmdOutcome.res false CmdError.CMD_ERR_NOT_CONNECTED)
          else if s.appState = AppState.RUNNING then
            (s, CmdOutcome.res false CmdError.CMD_ERR_RUNNING)
          else
            (disconnect_clicked s, CmdOutcome.res true CmdError.CMD_OK)
        | _ => (s, CmdOutcome.res false CmdError.CMD_ERR_SYNTAX)
      else if strEqCI tok1 ['S', 'H', 'U', 'T', 'D', 'O', 'W', 'N'] then
        match rest with
        | [] =>
          if s.appState = AppState.DISCONNECTED then
            (s, CmdOutcome.res false CmdError.CMD_ERR_NOT_CONNECTED)
          else if s.appState = AppState.RUNNING then
            (s, CmdOutcome.res false CmdError.CMD_ERR_RUNNING)
          else
            (shutdown_clicked env s, CmdOutcome.res true CmdError.CMD_OK)
        | _ => (s, CmdOutcome.res false CmdError.CMD_ERR_SYNTAX)
      else if strEqCI tok1 ['S', 'T', 'A', 'R', 'T'] then
        match rest with
        | [] =>
          if s.appState = AppState.DISCONNECTED then
            (s, CmdOutcome.res false CmdError.CMD_ERR_NOT_CONNECTED)
          else if s.appState = AppState.RUNNING then
            (s, CmdOutcome.res false CmdError.CMD_ERR_ALREADY_RUNNING)
          else
            (start_clicked env s, CmdOutcome.res true CmdError.CMD_OK)
        | _ => (s, CmdOutcome.res false CmdError.CMD_ERR_SYNTAX)
      else if strEqCI tok1 ['S', 'T', 'O', 'P'] then
        match rest with
        | [] =>
          if s.appState = AppState.DISCONNECTED then
            (s, CmdOutcome.res false CmdError.CMD_ERR_NOT_CONNECTED)
          else if s.appState ≠ AppState.RUNNING then
            (s, CmdOutcome.res false CmdError.CMD_ERR_NOT_RUNNING)
          else
            (stop_clicked s, CmdOutcome.res true CmdError.CMD_OK)
        | _ => (s, CmdOutcome.res false CmdError.CMD_ERR_SYNTAX)
      else if strEqCI tok1 ['C', 'O', 'N', 'F', 'I', 'G', 'U', 'R', 'E'] then
        match rest with
        | [tok2, tok3] =>
          match canonical_sensor tok2 with
          | none => (s, CmdOutcome.res false CmdError.CMD_ERR_SENSOR)
          | some i =>
            if !tok3.all Char.isDigit then
              (s, CmdOutcome.res false CmdError.CMD_ERR_FREQ_RANGE)
            else if atoiDigits tok3 < 10 ∨ 1000 < atoiDigits tok3 then
              (s, CmdOutcome.res false CmdError.CMD_ERR_FREQ_RANGE)
            else
              -- local model update; sent to the server only with an open socket
              ({ s with freqs := Function.update s.freqs i (some tok3) },
               CmdOutcome.res true CmdError.CMD_OK)
        | _ => (s, CmdOutcome.res false CmdError.CMD_ERR_SYNTAX)
      else
        (s, CmdOutcome.res false CmdError.CMD_ERR_SYNTAX)



/-! ## Claims C1, C5, C8, C10 -/

/-- A fixed environment for concrete evaluations: handshake succeeds with
descriptor 3, sends succeed, dialogs are confirmed. -/
def env0 : NetEnv := ⟨true, 3, true, true⟩

/-- The five state-dependent verbs of the Session State Machine. -/
inductive Verb where
  | connect
  | disconnect
  | start
  | stop
  | shutdown
  deriving DecidableEq, Repr

/-- The textual command for each verb (CONNECT with a valid address, so
that only the state check can reject it). -/
def verbText : Verb → List Char
  | Verb.connect => "CONNECT 10.0.0.5".data
  | Verb.disconnect => "DISCONNECT".data
  | Verb.start => "START".data
  | Verb.stop => "STOP".data
  | Verb.shutdown => "SHUTDOWN".data

/-- The legal-transition table of spec section 4.3. -/
def legalPair : AppState → Verb → Bool
  | AppState.DISCONNECTED, Verb.connect => true
  | AppState.CONNECTED, Verb.start => true
  | AppState.RUNNING, Verb.stop => true
  | AppState.CONNECTED, Verb.disconnect => true
  | AppState.CONNECTED, Verb.shutdown => true
  | _, _ => false

/-- The error kind `cmd_enter` actually produces for each illegal
(state, verb) pair; `CMD_OK` on the legal pairs (unused there). -/
def illegalErr : AppState → Verb → CmdError
  | AppState.CONNECTED, Verb.connect => CmdError.CMD_ERR_SYNTAX
  | AppState.RUNNING, Verb.connect => CmdError.CMD_ERR_SYNTAX
  | AppState.DISCONNECTED, Verb.disconnect => CmdError.CMD_ERR_NOT_CONNECTED
  | AppState.RUNNING, Verb.disconnect => CmdError.CMD_ERR_RUNNING
  | AppState.DISCONNECTED, Verb.shutdown => CmdError.CMD_ERR_NOT_CONNECTED
  | AppState.RUNNING, Verb.shutdown => CmdError.CMD_ERR_RUNNING
  | AppState.DISCONNECTED, Verb.start => CmdError.CMD_ERR_NOT_CONNECTED
  | AppState.RUNNING, Verb.start => CmdError.CMD_ERR_ALREADY_RUNNING
  | AppState.DISCONNECTED, Verb.stop => CmdError.CMD_ERR_NOT_CONNECTED
  | AppState.CONNECTED, Verb.stop => CmdError.CMD_ERR_NOT_RUNNING
  | _, _ => CmdError.CMD_OK

/-- The four error kinds that identify a violated state precondition
(not-connected, running-so-cannot-proceed, already-running, not-running). -/
def stateViolationKinds : List CmdError :=
  [CmdError.CMD_ERR_NOT_CONNECTED, CmdError.CMD_ERR_RUNNING,
   CmdError.CMD_ERR_ALREADY_RUNNING, CmdError.CMD_ERR_NOT_RUNNING]

theorem cmd_enter_CONNECT (env : NetEnv) (s : GuiState) :
    cmd_enter env s (verbText Verb.connect) =
      if s.appState ≠ AppState.DISCONNECTED then
        (s, CmdOutcome.res false CmdError.CMD_ERR_SYNTAX)
      else (connect_clicked env "10.0.0.5".data s, CmdOutcome.res true CmdError.CMD_OK) := by
  rfl

theorem cmd_enter_DISCONNECT (env : NetEnv) (s : GuiState) :
    cmd_enter env s (verbText Verb.disconnect) =
      if s.appState = AppState.DISCONNECTED then
        (s, CmdOutcome.res false CmdError.CMD_ERR_NOT_CONNECTED)
      else if s.appState = AppState.RUNNING then
        (s, CmdOutcome.res false CmdError.CMD_ERR_RUNNING)
      else (disconnect_clicked s, CmdOutcome.res true CmdError.CMD_OK) := by
  rfl

theorem cmd_enter_SHUTDOWN (env : NetEnv) (s : GuiState) :
    cmd_enter env s (verbText Verb.shutdown) =
      if s.appState = AppState.DISCONNECTED then
        (s, CmdOutcome.res false CmdError.CMD_ERR_NOT_CONNECTED)
      else if s.appState = AppState.RUNNING then
        (s, CmdOutcome.res false CmdError.CMD_ERR_RUNNING)
      else (shutdown_clicked env s, CmdOutcome.res true CmdError.CMD_OK) := by
  rfl

theorem cmd_enter_START (env : NetEnv) (s : GuiState) :
    cmd_enter env s (verbText Verb.start) =
      if s.appState = AppState.DISCONNECTED then
        (s, CmdOutcome.res false CmdError.CMD_ERR_NOT_CONNECTED)
      else if s.appState = AppState.RUNNING then
        (s, CmdOutcome.res false CmdError.CMD_ERR_ALREADY_RUNNING)
      else (start_clicked env s, CmdOutcome.res true CmdError.CMD_OK) := by
  rfl

theorem cmd_enter_STOP (env : NetEnv) (s : GuiState) :
    cmd_enter env s (verbText Verb.stop) =
      if s.appState = AppState.DISCONNECTED then
        (s, CmdOutcome.res false CmdError.CMD_ERR_NOT_CONNECTED)
      else if s.appState ≠ AppState.RUNNING then
        (s, CmdOutcome.res false CmdError.CMD_ERR_NOT_RUNNING)
      else (stop_clicked s, CmdOutcome.res true CmdError.CMD_OK) := by
  rfl


/-- Claim C1 (corrected), counterexample: CONNECT issued while CONNECTED
is an illegal pair, but `cmd_enter` rejects it with the generic
`CMD_ERR_SYNTAX` ("Invalid command") rather than an error kind that
identifies the violated state precondition. -/
theorem claim_C1_counterexample :
    legalPair AppState.CONNECTED Verb.connect = false ∧
    (cmd_enter env0 (mkState AppState.CONNECTED) (verbText Verb.connect)).2
      = CmdOutcome.res false CmdError.CMD_ERR_SYNTAX ∧
    stateViolationKinds.contains CmdError.CMD_ERR_SYNTAX = false := by
  refine ⟨by decide, ?_, by decide⟩
  decide

/-- Claim C1 (corrected, amended): for every (state, event) pair not in
the legal transition table, `cmd_enter` reports failure and leaves the
whole state (in particular the session state) unchanged; the error kind
is the distinct state-violation kind recorded in `illegalErr` for
DISCONNECT, START, STOP and SHUTDOWN (in particular STOP while
DISCONNECTED gives the not-connected error), while an illegal CONNECT
gets only the generic syntax error. -/
theorem claim_C1 (env : NetEnv) (s : GuiState) (v : Verb)
    (h : legalPair s.appState v = false) :
    cmd_enter env s (verbText v)
      = (s, CmdOutcome.res false (illegalErr s.appState v)) := by
  cases v with
  | connect =>
    rw [cmd_enter_CONNECT]
    cases hst : s.appState with
    | DISCONNECTED => rw [hst] at h; exact absurd h (by decide)
    | CONNECTED => simp [hst, illegalErr]
    | RUNNING => simp [hst, illegalErr]
  | disconnect =>
    rw [cmd_enter_DISCONNECT]
    cases hst : s.appState with
    | DISCONNECTED => simp [hst, illegalErr]
    | CONNECTED => rw [hst] at h; exact absurd h (by decide)
    | RUNNING => simp [hst, illegalErr]
  | start =>
    rw [cmd_enter_START]
    cases hst : s.appState with
    | DISCONNECTED => simp [hst, illegalErr]
    | CONNECTED => rw [hst] at h; exact absurd h (by decide)
    | RUNNING => simp [hst, illegalErr]
  | stop =>
    rw [cmd_enter_STOP]
    cases hst : s.appState with
    | DISCONNECTED => simp [hst, illegalErr]
    | CONNECTED => simp [hst, illegalErr]
    | RUNNING => rw [hst] at h; exact absurd h (by decide)
  | shutdown =>
    rw [cmd_enter_SHUTDOWN]
    cases hst : s.appState with
    | DISCONNECTED => simp [hst, illegalErr]
    | CONNECTED => rw [hst] at h; exact absurd h (by decide)
    | RUNNING => simp [hst, illegalErr]

/-- Witness for claim C1's theorem at a concrete illegal pair:
DISCONNECT while RUNNING. -/
theorem claim_C1_witness :
    legalPair (mkState AppState.RUNNING).appState Verb.disconnect = false ∧
    cmd_enter env0 (mkState AppState.RUNNING) (verbText Verb.disconnect)
      = (mkState AppState.RUNNING,
         CmdOutcome.res false
           (illegalErr (mkState AppState.RUNNING).appState Verb.disconnect)) :=
  ⟨by decide, claim_C1 env0 (mkState AppState.RUNNING) Verb.disconnect (by decide)⟩

/-- Claim C5 (code_bug): the frequency-range halves hold (`CONFIGURE TEMP
9` and `CONFIGURE TEMP 1001` give the range error, `CONFIGURE TEMP 500`
succeeds while RUNNING), but `cmd_enter`'s CONFIGURE branch never checks
the session state: `CONFIGURE TEMP 500` issued while DISCONNECTED also
reports success (and leaves the state DISCONNECTED), where the claim -
and the program's own HELP text, "Streaming must be running to apply
configuration" - require a state-violation error. -/
theorem claim_C5 :
    (cmd_enter env0 (mkState AppState.RUNNING) "CONFIGURE TEMP 9".data).2
      = CmdOutcome.res false CmdError.CMD_ERR_FREQ_RANGE ∧
    (cmd_enter env0 (mkState AppState.RUNNING) "CONFIGURE TEMP 1001".data).2
      = CmdOutcome.res false CmdError.CMD_ERR_FREQ_RANGE ∧
    (cmd_enter env0 (mkState AppState.RUNNING) "CONFIGURE TEMP 500".data).2
      = CmdOutcome.res true CmdError.CMD_OK ∧
    (cmd_enter env0 (mkState AppState.DISCONNECTED) "CONFIGURE TEMP 500".data).2
      = CmdOutcome.res true CmdError.CMD_OK ∧
    (cmd_enter env0 (mkState AppState.DISCONNECTED) "CONFIGURE TEMP 500".data).1.appState
      = AppState.DISCONNECTED := by
  refine ⟨?_, ?_, ?_, ?_, ?_⟩ <;> decide

/-- Claim C8 (confirmed): `handle_connection_lost` is idempotent.  After
one invocation the socket handle is -1, the running flag is cleared, all
per-sensor counts and heads and the origin timestamp are 0, and the
state is DISCONNECTED; a second invocation returns the state unchanged.
(The hypothesis records that the socket handle is a real descriptor or
the invalid value -1, the only values the program ever stores.) -/
theorem claim_C8 (s : GuiState) (h : s.sockFd = -1 ∨ 0 ≤ s.sockFd) :
    handle_connection_lost (handle_connection_lost s) = handle_connection_lost s ∧
    (handle_connection_lost s).sockFd = -1 ∧
    (handle_connection_lost s).netRunning = false ∧
    (∀ j, (handle_connection_lost s).counts j = 0) ∧
    (∀ j, (handle_connection_lost s).heads j = 0) ∧
    (handle_connection_lost s).serverT0 = 0 ∧
    (handle_connection_lost s).appState = AppState.DISCONNECTED := by
  dsimp only [handle_connection_lost, reset_plot_state]
  refine ⟨?_, ?_, rfl, fun j => rfl, fun j => rfl, rfl, rfl⟩
  · split_ifs <;> rfl
  · rcases h with h | h
    · simp [h]
    · rw [if_pos h]

/-- A RUNNING session on descriptor 3, used as concrete witness input. -/
def liveState : GuiState :=
  { mkState AppState.RUNNING with
    sockFd := 3
    netRunning := true
    freqs := fun _ => some ['1', '0', '0', '0'] }

/-- Witness for claim C8 at a live connection (descriptor 3). -/
theorem claim_C8_witness :
    (liveState.sockFd = -1 ∨ 0 ≤ liveState.sockFd) ∧
    (handle_connection_lost (handle_connection_lost liveState)
        = handle_connection_lost liveState ∧
      (handle_connection_lost liveState).sockFd = -1 ∧
      (handle_connection_lost liveState).netRunning = false ∧
      (∀ j, (handle_connection_lost liveState).counts j = 0) ∧
      (∀ j, (handle_connection_lost liveState).heads j = 0) ∧
      (handle_connection_lost liveState).serverT0 = 0 ∧
      (handle_connection_lost liveState).appState = AppState.DISCONNECTED) :=
  ⟨Or.inr (by decide), claim_C8 liveState (Or.inr (by decide))⟩

/-- Claim C10 (confirmed): `start_clicked` with an open socket, not
already RUNNING, and a successful send of `START\n` overwrites every
sensor's stored rate with "300", recomputes the visible window from
300 Hz through the clamped formula (giving 1,000,000 us, inside
[50,000 us, 5,000,000 us]), and moves the state machine to RUNNING -
whatever rates were stored before. -/
theorem claim_C10 (env : NetEnv) (s : GuiState)
    (hfd : 0 ≤ s.sockFd) (hst : s.appState ≠ AppState.RUNNING)
    (hsend : env.sendOk = true) :
    (start_clicked env s).appState = AppState.RUNNING ∧
    (∀ i, (start_clicked env s).freqs i = some ['3', '0', '0']) ∧
    (start_clicked env s).windowUs = clampWindow (windowFromRate 300) ∧
    (start_clicked env s).windowUs = 1000000 ∧
    MIN_WINDOW_US ≤ (start_clicked env s).windowUs ∧
    (start_clicked env s).windowUs ≤ MAX_WINDOW_US := by
  have hw : clampWindow (windowFromRate 300) = 1000000 := by
    unfold clampWindow windowFromRate VISIBLE_SAMPLES MIN_WINDOW_US MAX_WINDOW_US
    norm_num
    rfl
  unfold start_clicked
  rw [if_neg (by omega), if_neg hst, if_neg (by simp [hsend])]
  refine ⟨rfl, fun i => rfl, rfl, ?_, ?_, ?_⟩
  · exact hw
  · dsimp only
    rw [hw]
    decide
  · dsimp only
    rw [hw]
    decide

/-- A CONNECTED session on descriptor 3 with a server-pushed 1000 Hz rate
stored for every sensor, used as concrete witness input. -/
def connState : GuiState :=
  { mkState AppState.CONNECTED with
    sockFd := 3
    freqs := fun _ => some ['1', '0', '0', '0'] }

/-- Witness for claim C10 at `connState`. -/
theorem claim_C10_witness :
    (0 ≤ connState.sockFd) ∧ (connState.appState ≠ AppState.RUNNING) ∧
    env0.sendOk = true ∧
    ((start_clicked env0 connState).appState = AppState.RUNNING ∧
     (∀ i, (start_clicked env0 connState).freqs i = some ['3', '0', '0']) ∧
     (start_clicked env0 connState).windowUs = clampWindow (windowFromRate 300) ∧
     (start_clicked env0 connState).windowUs = 1000000 ∧
     MIN_WINDOW_US ≤ (start_clicked env0 connState).windowUs ∧
     (start_clicked env0 connState).windowUs ≤ MAX_WINDOW_US) :=
  ⟨by decide, by decide, by decide,
   claim_C10 env0 connState (by decide) (by decide) (by decide)⟩



/-! ## Rate-table updates (`handle_rates_update`, `gui.c` lines 419-470) -/

/-- `sensor_rate_t` from `utils.h`: two unsigned 32-bit fields. -/
structure SensorRate where
  sensor_id : Nat
  rate_hz : Nat
  deriving DecidableEq, Repr

/-- `snprintf(buf, _, "%u", rate_hz)`: the decimal digits of the rate. -/
def natChars (n : Nat) : List Char := Nat.toDigits 10 n

/-- The "dynamic time window for ADC0" block of `handle_rates_update`:
when the record is for `adc_zero_sid` (index 1) and its rate is positive,
recompute `time_window_us = (uint64)(VISIBLE_SAMPLES * (1e6/rate))`
clamped to `[MIN_WINDOW_US, MAX_WINDOW_US]`; otherwise do nothing. -/
def updateWindowADC0 (r : SensorRate) (s : GuiState) : GuiState :=
  if r.sensor_id = 1 ∧ 0 < r.rate_hz then
    { s with windowUs := clampWindow (windowFromRate r.rate_hz) }
  else s

/-- One iteration of the loop of `handle_rates_update`: store the rate
string under the record's sensor id, then maybe recompute the window.
A record whose id is not below `SENSOR_COUNT` would index `sensor_ids[]`
out of bounds in the C source (undefined behaviour); it is modelled as a
no-op and the claims only use well-formed messages. -/
def ratesStep (s : GuiState) (r : SensorRate) : GuiState :=
  if h : r.sensor_id < 5 then
    updateWindowADC0 r
      { s with
        freqs := Function.update s.freqs ⟨r.sensor_id, h⟩ (some (natChars r.rate_hz)) }
  else s

/-- `handle_rates_update`: reset `server_t0`, then fold the loop body
over the message's records.  (The hz-entry refresh at the end is
presentation-side.) -/
def handle_rates_update (s : GuiState) (msg : List SensorRate) : GuiState :=
  msg.foldl ratesStep { s with serverT0 := 0 }

theorem clampWindow_bounds (w : Nat) :
    MIN_WINDOW_US ≤ clampWindow w ∧ clampWindow w ≤ MAX_WINDOW_US := by
  unfold clampWindow MIN_WINDOW_US MAX_WINDOW_US
  dsimp only
  split_ifs <;> omega

theorem ratesStep_windowUs (s : GuiState) (r : SensorRate) :
    (ratesStep s r).windowUs =
      if r.sensor_id = 1 ∧ 0 < r.rate_hz then clampWindow (windowFromRate r.rate_hz)
      else s.windowUs := by
  by_cases h5 : r.sensor_id < 5
  · rw [ratesStep, dif_pos h5]
    unfold updateWindowADC0
    split_ifs <;> rfl
  · rw [ratesStep, dif_neg h5, if_neg ?_]
    rintro ⟨h1, _⟩
    exact h5 (by omega)

theorem foldl_ratesStep_windowUs (msg : List SensorRate) (s : GuiState) :
    (msg.foldl ratesStep s).windowUs =
      msg.foldl
        (fun w r =>
          if r.sensor_id = 1 ∧ 0 < r.rate_hz then clampWindow (windowFromRate r.rate_hz)
          else w)
        s.windowUs := by
  induction msg generalizing s with
  | nil => rfl
  | cons r t ih =>
    rw [List.foldl_cons, List.foldl_cons, ih (ratesStep s r), ratesStep_windowUs]

theorem foldl_window_no_match (t : List SensorRate) (w : Nat)
    (h : t.filter (fun r => decide (r.sensor_id = 1 ∧ 0 < r.rate_hz)) = []) :
    t.foldl
      (fun w r =>
        if r.sensor_id = 1 ∧ 0 < r.rate_hz then clampWindow (windowFromRate r.rate_hz)
        else w)
      w = w := by
  induction t generalizing w with
  | nil => rfl
  | cons a t ih =>
    rw [List.filter_cons] at h
    split at h
    · exact absurd h (by simp)
    · rename_i hpa
      rw [List.foldl_cons, if_neg (by simpa using hpa)]
      exact ih w h

theorem foldl_window_single (msg : List SensorRate) (w : Nat) (rec : SensorRate)
    (h : msg.filter (fun r => decide (r.sensor_id = 1 ∧ 0 < r.rate_hz)) = [rec]) :
    msg.foldl
      (fun w r =>
        if r.sensor_id = 1 ∧ 0 < r.rate_hz then clampWindow (windowFromRate r.rate_hz)
        else w)
      w = clampWindow (windowFromRate rec.rate_hz) := by
  induction msg generalizing w with
  | nil => exact absurd h (by simp)
  | cons a t ih =>
    rw [List.filter_cons] at h
    split at h
    · rename_i hpa
      rw [List.cons.injEq] at h
      obtain ⟨rfl, hrest⟩ := h
      rw [List.foldl_cons, if_pos (by simpa using hpa)]
      exact foldl_window_no_match t _ hrest
    · rename_i hpa
      rw [List.foldl_cons, if_neg (by simpa using hpa)]
      exact ih w h

/-- Claim C7 (confirmed): when a rate-table update carries exactly one
record for the timing-reference sensor ADC0 (index 1) with positive rate
`r`, `handle_rates_update` sets the visible window to
`(uint64)(VISIBLE_SAMPLES * (1,000,000 / r))` clamped into
`[50,000 us, 5,000,000 us]`; the resulting window lies in that range,
re-running the update recomputes the same window (idempotence), and the
window-recompute step touches no state besides the cached window value. -/
theorem claim_C7 (s : GuiState) (msg : List SensorRate) (rec : SensorRate)
    (h : msg.filter (fun r => decide (r.sensor_id = 1 ∧ 0 < r.rate_hz)) = [rec]) :
    (handle_rates_update s msg).windowUs = clampWindow (windowFromRate rec.rate_hz) ∧
    MIN_WINDOW_US ≤ (handle_rates_update s msg).windowUs ∧
    (handle_rates_update s msg).windowUs ≤ MAX_WINDOW_US ∧
    (handle_rates_update (handle_rates_update s msg) msg).windowUs
      = (handle_rates_update s msg).windowUs ∧
    (∀ (r : SensorRate) (s' : GuiState),
      updateWindowADC0 r s' = { s' with windowUs := (updateWindowADC0 r s').windowUs }) := by
  have key : ∀ s' : GuiState,
      (handle_rates_update s' msg).windowUs = clampWindow (windowFromRate rec.rate_hz) := by
    intro s'
    rw [handle_rates_update, foldl_ratesStep_windowUs]
    exact foldl_window_single msg _ rec h
  refine ⟨key s, ?_, ?_, ?_, ?_⟩
  · rw [key s]; exact (clampWindow_bounds _).1
  · rw [key s]; exact (clampWindow_bounds _).2
  · rw [key s, key (handle_rates_update s msg)]
  · intro r s'
    unfold updateWindowADC0
    split_ifs <;> rfl

/-- Witness for claim C7: a full five-record push with ADC0 at 200 Hz;
the window becomes 300 x (1,000,000 / 200) = 1,500,000 us. -/
theorem claim_C7_witness :
    ([⟨0, 100⟩, ⟨1, 200⟩, ⟨2, 300⟩, ⟨3, 400⟩, ⟨4, 500⟩] : List SensorRate).filter
        (fun r => decide (r.sensor_id = 1 ∧ 0 < r.rate_hz)) = [⟨1, 200⟩] ∧
    ((handle_rates_update (mkState AppState.RUNNING)
          [⟨0, 100⟩, ⟨1, 200⟩, ⟨2, 300⟩, ⟨3, 400⟩, ⟨4, 500⟩]).windowUs
        = clampWindow (windowFromRate 200) ∧
      MIN_WINDOW_US ≤ (handle_rates_update (mkState AppState.RUNNING)
          [⟨0, 100⟩, ⟨1, 200⟩, ⟨2, 300⟩, ⟨3, 400⟩, ⟨4, 500⟩]).windowUs ∧
      (handle_rates_update (mkState AppState.RUNNING)
          [⟨0, 100⟩, ⟨1, 200⟩, ⟨2, 300⟩, ⟨3, 400⟩, ⟨4, 500⟩]).windowUs ≤ MAX_WINDOW_US ∧
      (handle_rates_update (handle_rates_update (mkState AppState.RUNNING)
            [⟨0, 100⟩, ⟨1, 200⟩, ⟨2, 300⟩, ⟨3, 400⟩, ⟨4, 500⟩])
          [⟨0, 100⟩, ⟨1, 200⟩, ⟨2, 300⟩, ⟨3, 400⟩, ⟨4, 500⟩]).windowUs
        = (handle_rates_update (mkState AppState.RUNNING)
            [⟨0, 100⟩, ⟨1, 200⟩, ⟨2, 300⟩, ⟨3, 400⟩, ⟨4, 500⟩]).windowUs ∧
      (∀ (r : SensorRate) (s' : GuiState),
        updateWindowADC0 r s'
          = { s' with windowUs := (updateWindowADC0 r s').windowUs })) :=
  ⟨by decide,
   claim_C7 (mkState AppState.RUNNING)
     [⟨0, 100⟩, ⟨1, 200⟩, ⟨2, 300⟩, ⟨3, 400⟩, ⟨4, 500⟩] ⟨1, 200⟩ (by decide)⟩



/-! ## Ring buffer (`push_sample`, `gui.c` lines 577-637; read order as in
`draw_grid`, `gui.c` lines 1910-1927) -/

/-- A sequence of `push_sample` calls for one sensor; each pair is
(value, absolute timestamp), in network arrival order. -/
def pushMany (s : GuiState) (sid : Nat) (L : List (Nat × Nat)) : GuiState :=
  L.foldl (fun t p => push_sample t sid p.1 p.2) s

/-- The (value, relative-timestamp) entries that the sequence `L` of
samples generates, threading the origin exactly as `push_sample` does:
the origin is the first timestamp seen while the origin is 0, and each
relative timestamp is the 64-bit-wrapping difference. -/
def relEntriesFrom (t0 : Nat) : List (Nat × Nat) → List (Nat × Nat)
  | [] => []
  | (v, ts) :: rest =>
    (v, (2 ^ 64 + ts - (if t0 = 0 then ts else t0)) % 2 ^ 64)
      :: relEntriesFrom (if t0 = 0 then ts else t0) rest

/-- The origin after processing `L` starting from origin `t0`. -/
def originFrom (t0 : Nat) (L : List (Nat × Nat)) : Nat :=
  L.foldl (fun a p => if a = 0 then p.2 else a) t0

/-- The live entries of one sensor's ring buffer in oldest-to-newest
order: logical positions `(head - count)` to `(head - 1)` modulo
`MAX_SAMPLES`, exactly the traversal the renderer (`draw_grid`) uses. -/
def bufferEntries (s : GuiState) (sid : Nat) : List (Nat × Nat) :=
  (List.range (s.counts sid)).map (fun i =>
    (s.dataArr sid ((s.heads sid + MAX_SAMPLES - s.counts sid + i) % MAX_SAMPLES),
     s.tsArr sid ((s.heads sid + MAX_SAMPLES - s.counts sid + i) % MAX_SAMPLES)))

theorem pushMany_append (s : GuiState) (sid : Nat) (L : List (Nat × Nat))
    (p : Nat × Nat) :
    pushMany s sid (L ++ [p]) = push_sample (pushMany s sid L) sid p.1 p.2 := by
  unfold pushMany
  rw [List.foldl_append]
  rfl

theorem originFrom_append (t0 : Nat) (L : List (Nat × Nat)) (p : Nat × Nat) :
    originFrom t0 (L ++ [p])
      = (if originFrom t0 L = 0 then p.2 else originFrom t0 L) := by
  unfold originFrom
  rw [List.foldl_append]
  rfl

theorem relEntriesFrom_length (t0 : Nat) (L : List (Nat × Nat)) :
    (relEntriesFrom t0 L).length = L.length := by
  induction L generalizing t0 with
  | nil => rfl
  | cons p rest ih =>
    obtain ⟨v, ts⟩ := p
    rw [relEntriesFrom]
    simp [ih]

theorem relEntriesFrom_append (t0 : Nat) (L : List (Nat × Nat)) (p : Nat × Nat) :
    relEntriesFrom t0 (L ++ [p])
      = relEntriesFrom t0 L
        ++ [(p.1, (2 ^ 64 + p.2 - (if originFrom t0 L = 0 then p.2 else originFrom t0 L))
              % 2 ^ 64)] := by
  induction L generalizing t0 with
  | nil =>
    obtain ⟨v, ts⟩ := p
    rfl
  | cons q rest ih =>
    obtain ⟨w, us⟩ := q
    rw [List.cons_append, relEntriesFrom, relEntriesFrom, ih]
    have : originFrom t0 ((w, us) :: rest)
        = originFrom (if t0 = 0 then us else t0) rest := rfl
    rw [List.cons_append, this]


theorem push_sample_serverT0 (s : GuiState) (sid v ts : Nat) :
    (push_sample s sid v ts).serverT0 = if s.serverT0 = 0 then ts else s.serverT0 := rfl

theorem push_sample_counts_self (s : GuiState) (sid v ts : Nat) :
    (push_sample s sid v ts).counts sid
      = if s.counts sid < 1024 then s.counts sid + 1 else s.counts sid := by
  dsimp only [push_sample]
  rw [if_pos rfl]
  rfl

theorem push_sample_heads_self (s : GuiState) (sid v ts : Nat) :
    (push_sample s sid v ts).heads sid = (s.heads sid + 1) % 1024 := by
  dsimp only [push_sample]
  rw [if_pos rfl]
  rfl

theorem push_sample_dataArr (s : GuiState) (sid v ts a b : Nat) :
    (push_sample s sid v ts).dataArr a b
      = if a = sid ∧ b = s.heads sid then v else s.dataArr a b := rfl

theorem push_sample_tsArr (s : GuiState) (sid v ts a b : Nat) :
    (push_sample s sid v ts).tsArr a b
      = if a = sid ∧ b = s.heads sid then
          (2 ^ 64 + ts - (if s.serverT0 = 0 then ts else s.serverT0)) % 2 ^ 64
        else s.tsArr a b := rfl

/-- The ring-buffer invariant after an arbitrary insertion sequence into
one sensor, starting from a reset sensor and origin: the count saturates
at the capacity, the head is the insertion count modulo the capacity,
the origin is the threaded origin of the sequence, and the slot holding
the j-th newest entry is `(head - 1 - j) mod 1024` and stores the j-th
newest generated entry. -/
theorem pushMany_inv (sid : Nat) (s0 : GuiState)
    (h0c : s0.counts sid = 0) (h0h : s0.heads sid = 0) (h0t : s0.serverT0 = 0)
    (L : List (Nat × Nat)) :
    (pushMany s0 sid L).counts sid = min L.length 1024 ∧
    (pushMany s0 sid L).heads sid = L.length % 1024 ∧
    (pushMany s0 sid L).serverT0 = originFrom 0 L ∧
    (∀ j, j < min L.length 1024 →
      (pushMany s0 sid L).dataArr sid ((L.length + 1023 - j) % 1024)
          = ((relEntriesFrom 0 L).getD (L.length - 1 - j) (0, 0)).1 ∧
      (pushMany s0 sid L).tsArr sid ((L.length + 1023 - j) % 1024)
          = ((relEntriesFrom 0 L).getD (L.length - 1 - j) (0, 0)).2) := by
  induction L using List.reverseRecOn with
  | nil =>
    refine ⟨by simpa using h0c, by simpa using h0h, by simpa using h0t, ?_⟩
    intro j hj
    simp at hj
  | append_singleton L p ih =>
    obtain ⟨ihc, ihh, iht, ihe⟩ := ih
    have hlen : (L ++ [p]).length = L.length + 1 := by simp
    have hE : (relEntriesFrom 0 L).length = L.length := relEntriesFrom_length 0 L
    rw [pushMany_append]
    refine ⟨?_, ?_, ?_, ?_⟩
    · rw [push_sample_counts_self, ihc, hlen]
      split_ifs <;> omega
    · rw [push_sample_heads_self, ihh, hlen]
      omega
    · rw [push_sample_serverT0, iht, originFrom_append]
    · intro j hj
      rw [hlen] at hj ⊢
      rw [relEntriesFrom_append]
      rcases Nat.eq_zero_or_pos j with rfl | hj1
      · -- the newest entry sits at the old head slot
        have hidx : (L.length + 1 + 1023 - 0) % 1024 = L.length % 1024 := by omega
        have hgi : L.length + 1 - 1 - 0 = L.length := by omega
        rw [hidx, hgi, push_sample_dataArr, push_sample_tsArr, ihh, iht]
        have hcond : sid = sid ∧ L.length % 1024 = L.length % 1024 := ⟨rfl, rfl⟩
        rw [if_pos hcond, if_pos hcond]
        rw [List.getD_append_right _ _ _ _ (by rw [hE])]
        constructor <;> simp [hE]
      · -- older entries are untouched by the write
        have hj' : j - 1 < min L.length 1024 := by omega
        have hidx : L.length + 1 + 1023 - j = L.length + 1023 - (j - 1) := by omega
        have hne : (L.length + 1023 - (j - 1)) % 1024 ≠ L.length % 1024 := by omega
        have hgi : L.length + 1 - 1 - j = L.length - 1 - (j - 1) := by omega
        have hlt : L.length - 1 - (j - 1) < (relEntriesFrom 0 L).length := by
          rw [hE]; omega
        obtain ⟨ihd, iht2⟩ := ihe (j - 1) hj'
        rw [hidx, hgi, push_sample_dataArr, push_sample_tsArr, ihh]
        have hcond : ¬(sid = sid ∧ (L.length + 1023 - (j - 1)) % 1024 = L.length % 1024) :=
          fun hc => hne hc.2
        rw [if_neg hcond, if_neg hcond]
        rw [List.getD_append _ _ _ _ hlt]
        exact ⟨ihd, iht2⟩


/-- Claim C2 (confirmed): after `MAX_SAMPLES + k` insertions into one
sensor of a reset buffer, the sensor holds exactly `MAX_SAMPLES` entries,
and reading the logical positions `(head - count)` to `(head - 1)` modulo
`MAX_SAMPLES` yields exactly the last `MAX_SAMPLES` generated entries in
FIFO insertion order - the oldest `k` are evicted. -/
theorem claim_C2 (sid k : Nat) (L : List (Nat × Nat)) (s0 : GuiState)
    (_hsid : sid < SENSOR_COUNT)
    (h0c : s0.counts sid = 0) (h0h : s0.heads sid = 0) (h0t : s0.serverT0 = 0)
    (hlen : L.length = MAX_SAMPLES + k) :
    (pushMany s0 sid L).counts sid = MAX_SAMPLES ∧
    bufferEntries (pushMany s0 sid L) sid = (relEntriesFrom 0 L).drop k := by
  obtain ⟨hc, hh, _, he⟩ := pushMany_inv sid s0 h0c h0h h0t L
  have hM : MAX_SAMPLES = 1024 := rfl
  have hlen' : L.length = 1024 + k := by rw [hlen, hM]
  have hc' : (pushMany s0 sid L).counts sid = MAX_SAMPLES := by
    rw [hc, hlen', hM]
    omega
  refine ⟨hc', ?_⟩
  have hlenL : (bufferEntries (pushMany s0 sid L) sid).length = 1024 := by
    simp [bufferEntries, hc', hM]
  have hlenR : ((relEntriesFrom 0 L).drop k).length = 1024 := by
    simp [List.length_drop, relEntriesFrom_length, hlen']
  apply List.ext_getElem (by rw [hlenL, hlenR])
  intro i hi1 hi2
  have hi : i < 1024 := by rw [hlenL] at hi1; exact hi1
  have hj : 1023 - i < min L.length 1024 := by rw [hlen']; omega
  obtain ⟨hd, ht2⟩ := he (1023 - i) hj
  have hklt : k + i < (relEntriesFrom 0 L).length := by
    rw [relEntriesFrom_length, hlen']
    omega
  have hidx : ((pushMany s0 sid L).heads sid + MAX_SAMPLES
        - (pushMany s0 sid L).counts sid + i) % MAX_SAMPLES
      = (L.length + 1023 - (1023 - i)) % 1024 := by
    rw [hh, hc', hM]
    omega
  have hgd : L.length - 1 - (1023 - i) = k + i := by
    rw [hlen']
    omega
  rw [hgd, List.getD_eq_getElem _ _ hklt] at hd ht2
  simp only [bufferEntries, List.getElem_map, List.getElem_range, List.getElem_drop]
  rw [hidx, hd, ht2]

/-- The witness insertion sequence: 1025 samples with timestamps
1000, 1001, ... for sensor 0. -/
def c2list : List (Nat × Nat) := (List.range 1025).map (fun i => (i, 1000 + i))

/-- Witness for claim C2 at `c2list` (1025 = MAX_SAMPLES + 1 insertions
into sensor 0 of the reset start state). -/
theorem claim_C2_witness :
    (0 < SENSOR_COUNT ∧ (mkState AppState.RUNNING).counts 0 = 0 ∧
      (mkState AppState.RUNNING).heads 0 = 0 ∧
      (mkState AppState.RUNNING).serverT0 = 0 ∧
      c2list.length = MAX_SAMPLES + 1) ∧
    ((pushMany (mkState AppState.RUNNING) 0 c2list).counts 0 = MAX_SAMPLES ∧
      bufferEntries (pushMany (mkState AppState.RUNNING) 0 c2list) 0
        = (relEntriesFrom 0 c2list).drop 1) :=
  ⟨⟨by decide, rfl, rfl, rfl, by simp [c2list, MAX_SAMPLES]⟩,
   claim_C2 0 1 c2list (mkState AppState.RUNNING) (by decide) rfl rfl rfl
     (by simp [c2list, MAX_SAMPLES])⟩

/-- Claim C4 (code_bug): `push_sample`'s own doc comment says it "handles
timestamp reset detection", and the spec describes clearing all counts
and heads and re-baselining the origin when a sample's timestamp falls
below the previously seen maximum - but the function only establishes
`server_t0` once (while it is 0) and never compares against a maximum.
Pushing (value 1, ts 1000) then (value 2, ts 500) on sensor 0 leaves
count 2 (nothing cleared), origin 1000 (not re-baselined to 500), head 2,
and stores the wrapped relative timestamp `2^64 - 500` for the second
sample. -/
theorem claim_C4 :
    (push_sample (push_sample (mkState AppState.RUNNING) 0 1 1000) 0 2 500).counts 0
        = 2 ∧
    (push_sample (push_sample (mkState AppState.RUNNING) 0 1 1000) 0 2 500).serverT0
        = 1000 ∧
    (push_sample (push_sample (mkState AppState.RUNNING) 0 1 1000) 0 2 500).heads 0
        = 2 ∧
    (push_sample (push_sample (mkState AppState.RUNNING) 0 1 1000) 0 2 500).tsArr 0 1
        = 2 ^ 64 - 500 := by
  refine ⟨?_, ?_, ?_, ?_⟩ <;> decide



/-! ## Receive loop (`net_rx_thread` / `recv_all`, `gui.c` lines 483-525
and 1617-1630)

The inbound byte stream is a finite `List Nat` (one byte each); running
out of bytes models `recv` returning 0 or -1, failing `recv_all`.
The 4-byte length prefix is converted with `ntohl` (big endian); the
record fields are read from raw struct memory in host order (little
endian on the reference x86-64 platform, and no byte swap is applied to
them in the source). -/

/-- `sensor_data_t` from `utils.h`; under GCC the enum field behaves as
`unsigned int`, so all three fields are nonnegative. -/
structure SensorData where
  sensor_id : Nat
  sensor_value : Nat
  timestamp : Nat
  deriving DecidableEq, Repr

/-- `ntohl` of 4 received bytes (network order: first byte most
significant). -/
def be32 (b : List Nat) : Nat :=
  ((b.getD 0 0 * 256 + b.getD 1 0) * 256 + b.getD 2 0) * 256 + b.getD 3 0

/-- The network-order encoding of a 32-bit length prefix, used to state
properties about inbound streams. -/
def encode4be (n : Nat) : List Nat :=
  [n / 2 ^ 24 % 256, n / 2 ^ 16 % 256, n / 2 ^ 8 % 256, n % 256]

/-- A 32-bit little-endian (host order) field of a received struct. -/
def le32 (b : List Nat) : Nat :=
  b.getD 0 0 + 256 * (b.getD 1 0 + 256 * (b.getD 2 0 + 256 * b.getD 3 0))

/-- A 64-bit little-endian (host order) field of a received struct. -/
def le64 (b : List Nat) : Nat :=
  b.getD 0 0 + 256 * (b.getD 1 0 + 256 * (b.getD 2 0 + 256 * (b.getD 3 0
    + 256 * (b.getD 4 0 + 256 * (b.getD 5 0 + 256 * (b.getD 6 0
    + 256 * b.getD 7 0))))))

/-- One 16-byte `sensor_data_t` record: sensor id at offset 0, value at
offset 4, timestamp at offset 8. -/
def decodeRecord (b : List Nat) : SensorData :=
  ⟨le32 (b.take 4), le32 ((b.drop 4).take 4), le64 (b.drop 8)⟩

/-- `samples = payload_size / sizeof(sensor_data_t)` records are taken
from the payload; a trailing partial record is ignored, as in the for
loop of the source. -/
def decodeRecords : Nat → List Nat → List SensorData
  | 0, _ => []
  | n + 1, b => decodeRecord (b.take 16) :: decodeRecords n (b.drop 16)

/-- The body of the per-record for loop: records whose sensor id is not
below `SENSOR_COUNT` are skipped without any effect; the rest are pushed
into the ring buffer. -/
def batchStep (s : GuiState) (r : SensorData) : GuiState :=
  if r.sensor_id < SENSOR_COUNT then
    push_sample s r.sensor_id r.sensor_value r.timestamp
  else s

/-- Processing of one decoded streaming batch. -/
def processBatch (s : GuiState) (recs : List SensorData) : GuiState :=
  recs.foldl batchStep s

/-- The `while (net_running)` loop of `net_rx_thread`: read a 4-byte
length prefix (break on short read), convert with `ntohl`, break on a
zero or oversized (`> sizeof(batch) = 1440`) payload, read the payload
(break on short read), push the in-range records, repeat. -/
def net_rx_loop (s : GuiState) (stream : List Nat) : GuiState :=
  if !s.netRunning then s
  else if stream.length < 4 then s
  else
    if hbad : be32 (stream.take 4) = 0 ∨ 1440 < be32 (stream.take 4) then s
    else if hshort : stream.length < 4 + be32 (stream.take 4) then s
    else
      net_rx_loop
        (processBatch s
          (decodeRecords (be32 (stream.take 4) / 16)
            ((stream.drop 4).take (be32 (stream.take 4)))))
        (stream.drop (4 + be32 (stream.take 4)))
termination_by stream.length
decreasing_by
  simp only [List.length_drop]
  omega

/-- `net_rx_thread`: run the receive loop to exhaustion, then dispatch
`handle_connection_lost` (via `g_idle_add` in the source: the loop always
exits into the connection-loss cleanup). -/
def net_rx_thread (s : GuiState) (stream : List Nat) : GuiState :=
  handle_connection_lost (net_rx_loop s stream)

theorem be32_encode4be (n : Nat) (hn : n < 2 ^ 32) : be32 (encode4be n) = n := by
  simp only [be32, encode4be, List.getD_cons_zero, List.getD_cons_succ]
  omega

/-- Claim C6 (confirmed): a streaming batch whose declared length is zero
or exceeds the 1440-byte sanity bound is fatal: the receive loop stops
immediately with the state untouched - whatever bytes follow the prefix,
no frame is skipped and no further decoding happens - and the thread
then runs the connection-loss cleanup. -/
theorem claim_C6 (s : GuiState) (n : Nat) (rest : List Nat)
    (hbad : n = 0 ∨ 1440 < n) (hn : n < 2 ^ 32) :
    net_rx_loop s (encode4be n ++ rest) = s ∧
    net_rx_thread s (encode4be n ++ rest) = handle_connection_lost s := by
  have hlen4 : (encode4be n ++ rest).length = 4 + rest.length := by
    simp only [encode4be, List.length_append, List.length_cons, List.length_nil]
  have htake : (encode4be n ++ rest).take 4 = encode4be n := by
    have h4 : (encode4be n).length = 4 := by simp [encode4be]
    rw [← h4, List.take_left]
  have hloop : net_rx_loop s (encode4be n ++ rest) = s := by
    rw [net_rx_loop]
    by_cases hrun : s.netRunning
    · rw [if_neg (by simp [hrun])]
      rw [if_neg (by omega)]
      rw [dif_pos (by rw [htake, be32_encode4be n hn]; exact hbad)]
    · rw [if_pos (by simp [hrun])]
  exact ⟨hloop, by rw [net_rx_thread, hloop]⟩

/-- Witness for claim C6: an oversized declared length of 2000 bytes with
an empty remainder, received in a RUNNING session. -/
theorem claim_C6_witness :
    ((2000 : Nat) = 0 ∨ 1440 < 2000) ∧ (2000 : Nat) < 2 ^ 32 ∧
    (net_rx_loop liveState (encode4be 2000 ++ []) = liveState ∧
      net_rx_thread liveState (encode4be 2000 ++ [])
        = handle_connection_lost liveState) :=
  ⟨by decide, by decide, claim_C6 liveState 2000 [] (by decide) (by decide)⟩

theorem batchStep_skip (s : GuiState) (r : SensorData)
    (hr : SENSOR_COUNT ≤ r.sensor_id) : batchStep s r = s := by
  unfold batchStep
  rw [if_neg (by omega)]

theorem batchStep_out_of_range (s : GuiState) (r : SensorData) (j : Nat)
    (hj : SENSOR_COUNT ≤ j) :
    (batchStep s r).counts j = s.counts j ∧
    (batchStep s r).heads j = s.heads j ∧
    (∀ b, (batchStep s r).dataArr j b = s.dataArr j b) ∧
    (∀ b, (batchStep s r).tsArr j b = s.tsArr j b) := by
  have h5 : SENSOR_COUNT = 5 := rfl
  unfold batchStep
  split_ifs with h
  · refine ⟨?_, ?_, ?_, ?_⟩
    · show (if j = r.sensor_id then _ else s.counts j) = s.counts j
      rw [if_neg (by omega)]
    · show (if j = r.sensor_id then _ else s.heads j) = s.heads j
      rw [if_neg (by omega)]
    · intro b
      show (if j = r.sensor_id ∧ b = s.heads r.sensor_id then _ else s.dataArr j b)
          = s.dataArr j b
      rw [if_neg (by rintro ⟨h1, _⟩; omega)]
    · intro b
      show (if j = r.sensor_id ∧ b = s.heads r.sensor_id then _ else s.tsArr j b)
          = s.tsArr j b
      rw [if_neg (by rintro ⟨h1, _⟩; omega)]
  · exact ⟨rfl, rfl, fun b => rfl, fun b => rfl⟩

theorem processBatch_filter (recs : List SensorData) (s : GuiState) :
    processBatch s recs
      = processBatch s (recs.filter (fun q => decide (q.sensor_id < SENSOR_COUNT))) := by
  induction recs generalizing s with
  | nil => rfl
  | cons r t ih =>
    rw [processBatch, List.foldl_cons, List.filter_cons]
    split
    · rw [processBatch, List.foldl_cons]
      exact ih (batchStep s r)
    · rename_i hpr
      rw [batchStep_skip s r (by simpa using hpr)]
      exact ih s

theorem processBatch_out_of_range (recs : List SensorData) (s : GuiState) (j : Nat)
    (hj : SENSOR_COUNT ≤ j) :
    (processBatch s recs).counts j = s.counts j ∧
    (processBatch s recs).heads j = s.heads j ∧
    (∀ b, (processBatch s recs).dataArr j b = s.dataArr j b) ∧
    (∀ b, (processBatch s recs).tsArr j b = s.tsArr j b) := by
  induction recs generalizing s with
  | nil => exact ⟨rfl, rfl, fun b => rfl, fun b => rfl⟩
  | cons r t ih =>
    rw [processBatch, List.foldl_cons]
    obtain ⟨hc, hh, hd, ht⟩ := ih (batchStep s r)
    obtain ⟨hc1, hh1, hd1, ht1⟩ := batchStep_out_of_range s r j hj
    exact ⟨by rw [processBatch] at hc; rw [hc, hc1],
           by rw [processBatch] at hh; rw [hh, hh1],
           fun b => by rw [processBatch] at hd; rw [hd b, hd1 b],
           fun b => by rw [processBatch] at ht; rw [ht b, ht1 b]⟩

/-- Claim C9 (confirmed): in the per-record loop of a streaming batch, a
record whose sensor index is not in [0,5) is skipped with no effect and
no error; processing a batch equals processing only its in-range
records (decoding continues with the rest of the batch), and no
out-of-range buffer index is ever written. -/
theorem claim_C9 (s : GuiState) (recs : List SensorData) (r : SensorData) (j : Nat)
    (hr : SENSOR_COUNT ≤ r.sensor_id) (hj : SENSOR_COUNT ≤ j) :
    batchStep s r = s ∧
    processBatch s recs
      = processBatch s (recs.filter (fun q => decide (q.sensor_id < SENSOR_COUNT))) ∧
    (processBatch s recs).counts j = s.counts j ∧
    (processBatch s recs).heads j = s.heads j ∧
    (∀ b, (processBatch s recs).dataArr j b = s.dataArr j b) ∧
    (∀ b, (processBatch s recs).tsArr j b = s.tsArr j b) := by
  obtain ⟨hc, hh, hd, ht⟩ := processBatch_out_of_range recs s j hj
  exact ⟨batchStep_skip s r hr, processBatch_filter recs s, hc, hh, hd, ht⟩

/-- Witness for claim C9: a batch with an out-of-range record (sensor 7)
followed by an in-range one, observed at the out-of-range index 7. -/
theorem claim_C9_witness :
    SENSOR_COUNT ≤ (⟨7, 1, 10⟩ : SensorData).sensor_id ∧ SENSOR_COUNT ≤ 7 ∧
    (batchStep liveState ⟨7, 1, 10⟩ = liveState ∧
      processBatch liveState [⟨7, 1, 10⟩, ⟨0, 2, 11⟩]
        = processBatch liveState
            (([⟨7, 1, 10⟩, ⟨0, 2, 11⟩] : List SensorData).filter
              (fun q => decide (q.sensor_id < SENSOR_COUNT))) ∧
      (processBatch liveState [⟨7, 1, 10⟩, ⟨0, 2, 11⟩]).counts 7 = liveState.counts 7 ∧
      (processBatch liveState [⟨7, 1, 10⟩, ⟨0, 2, 11⟩]).heads 7 = liveState.heads 7 ∧
      (∀ b, (processBatch liveState [⟨7, 1, 10⟩, ⟨0, 2, 11⟩]).dataArr 7 b
        = liveState.dataArr 7 b) ∧
      (∀ b, (processBatch liveState [⟨7, 1, 10⟩, ⟨0, 2, 11⟩]).tsArr 7 b
        = liveState.tsArr 7 b)) :=
  ⟨by decide, by decide,
   claim_C9 liveState [⟨7, 1, 10⟩, ⟨0, 2, 11⟩] ⟨7, 1, 10⟩ 7 (by decide) (by decide)⟩


end MNG
